import Mathlib

/-!
Verification of the X4M200 host-side driver design (ofxXeThru).

The repository ships the public interface `src/X4M200.hpp`; the protocol
core behind it (frame codec, link session, command exchange, subscription
registry, output-feature controller) is described by the design document
but its implementation is not part of the repository sources.  The
definitions below therefore embed, on one side, everything the header
itself fixes (the telemetry kinds, the element type carried by each
read_message operation, the documented exclusivity rules of
set_output_control, the documented composition of reset), and, on the
other side, models of the missing components built faithfully from the
design document; every such definition carries a doc comment starting
with "Modelled from the spec:".  Real-valued quantities (detection-zone
meters, reported as float in the header) are embedded as rationals.
-/

/-- Telemetry kinds of the subscription surface, one per
peek_message_* / read_message_* pair of the header. -/
inductive TelemetryKind
  | basebandAP
  | basebandIQ
  | respirationLegacy
  | respirationSleep
  | respirationMovinglist
  | respirationDetectionlist
  | pulseDopplerFloat
  | pulseDopplerByte
  | noisemapFloat
  | noisemapByte
deriving DecidableEq, Fintype, Repr

/-- Element types delivered by the read_message_* operations, one per
out-parameter type appearing in the header. -/
inductive DataType
  | basebandApData
  | basebandIqData
  | respirationData
  | sleepData
  | respirationMovingListData
  | respirationDetectionListData
  | pulseDopplerFloatData
  | pulseDopplerByteData
deriving DecidableEq, Repr

/-- Element type filled in by the read_message operation of each kind,
read off the out-parameter type of the corresponding header signature;
in particular read_message_noisemap_float takes a PulseDopplerFloatData
pointer and read_message_noisemap_byte a PulseDopplerByteData pointer. -/
def readElemType : TelemetryKind → DataType
  | .basebandAP => .basebandApData
  | .basebandIQ => .basebandIqData
  | .respirationLegacy => .respirationData
  | .respirationSleep => .sleepData
  | .respirationMovinglist => .respirationMovingListData
  | .respirationDetectionlist => .respirationDetectionListData
  | .pulseDopplerFloat => .pulseDopplerFloatData
  | .pulseDopplerByte => .pulseDopplerByteData
  | .noisemapFloat => .pulseDopplerFloatData
  | .noisemapByte => .pulseDopplerByteData

/-- Decoded telemetry frame payload, kept opaque. -/
abbrev Frame := Nat

/-- Modelled from the spec: the TypedQueue of the SubscriptionRegistry
(implementation absent from the sources).  A bounded FIFO of decoded
items with a per-queue drop counter for evicted items. -/
structure TypedQueue (α : Type) where
  capacity : Nat
  items : List α
  dropped : Nat
deriving DecidableEq, Repr

/-- Modelled from the spec: an empty queue of the given fixed capacity. -/
def TypedQueue.empty (α : Type) (c : Nat) : TypedQueue α :=
  { capacity := c, items := [], dropped := 0 }

/-- Modelled from the spec: push by the receive loop.  The push is a
total function (it never blocks): when the queue is full the oldest
unread item is evicted to make room for the newest and the drop counter
is incremented. -/
def TypedQueue.push {α : Type} (q : TypedQueue α) (x : α) : TypedQueue α :=
  if q.items.length < q.capacity then
    { q with items := q.items ++ [x] }
  else
    { q with items := q.items.tail ++ [x], dropped := q.dropped + 1 }

/-- Modelled from the spec: pushing a whole list of frames in order. -/
def TypedQueue.pushAll {α : Type} (q : TypedQueue α) (fs : List α) : TypedQueue α :=
  fs.foldl TypedQueue.push q

/-- Outcome of one read step on a TypedQueue: an item together with the
remaining queue, a suspension (queue empty, session still open), or the
end-of-session indicator. -/
inductive ReadOutcome (α : Type)
  | item (x : α) (rest : TypedQueue α)
  | wouldBlock
  | closed
deriving DecidableEq, Repr

/-- Modelled from the spec: one read step.  On a closed session the
reader is unblocked with the closed indicator; on an open session the
head item is removed, and an empty queue suspends the caller. -/
def TypedQueue.read {α : Type} (q : TypedQueue α) (sessionClosed : Bool) : ReadOutcome α :=
  if sessionClosed then ReadOutcome.closed
  else
    match q.items with
    | [] => ReadOutcome.wouldBlock
    | x :: rest => ReadOutcome.item x { q with items := rest }

/-- Modelled from the spec: n successive read steps on an open session,
collecting the returned items in order. -/
def TypedQueue.readAll {α : Type} : TypedQueue α → Nat → List α
  | _, 0 => []
  | q, n + 1 =>
    match q.read false with
    | ReadOutcome.item x q2 => x :: q2.readAll n
    | _ => []

/-- Modelled from the spec: the SubscriptionRegistry, one TypedQueue per
telemetry kind, fed exclusively by the receive loop. -/
structure SubscriptionRegistry where
  queues : TelemetryKind → TypedQueue Frame

/-- Modelled from the spec: a fresh registry with the given fixed
capacity for each kind. -/
def SubscriptionRegistry.ofCapacity (cap : TelemetryKind → Nat) : SubscriptionRegistry :=
  { queues := fun k => TypedQueue.empty Frame (cap k) }

/-- Modelled from the spec: the receive loop delivers a decoded frame to
the queue of its kind, leaving every other queue untouched. -/
def SubscriptionRegistry.push (r : SubscriptionRegistry) (k : TelemetryKind) (f : Frame) :
    SubscriptionRegistry :=
  { queues := fun j => if j = k then (r.queues k).push f else r.queues j }

/-- Modelled from the spec: delivering a list of frames of one kind in
order. -/
def SubscriptionRegistry.pushMany (r : SubscriptionRegistry) (k : TelemetryKind)
    (fs : List Frame) : SubscriptionRegistry :=
  fs.foldl (fun a f => a.push k f) r

/-- Modelled from the spec: peek_message_* returns the current occupancy
of the queue of the kind; it never blocks and never fails. -/
def SubscriptionRegistry.peek (r : SubscriptionRegistry) (k : TelemetryKind) : Nat :=
  (r.queues k).items.length

/-- Modelled from the spec: state of the CommandExchange serialization
layer (implementation absent from the sources).  Callers are identified
by numbers; `waiting` holds callers queued in arrival order, `pending`
holds the callers owning a live PendingExchange, and `resolved` records
(caller, response) pairs in completion order. -/
structure ExchState where
  waiting : List Nat
  pending : List Nat
  resolved : List (Nat × Nat)
deriving DecidableEq, Repr

/-- Events of the CommandExchange machine: a caller invokes send, a
queued caller acquires the exchange slot, the receive loop resolves the
outstanding exchange with a response. -/
inductive XEv
  | invoke (c : Nat)
  | begin
  | resolve (r : Nat)
deriving DecidableEq, Repr

/-- Modelled from the spec: one transition of the CommandExchange
machine.  A send invoked while another is outstanding merely joins the
arrival queue; the exchange slot is acquired only when no
PendingExchange is live, and only by the longest-waiting caller. -/
def ExchState.step (s : ExchState) : XEv → Option ExchState
  | XEv.invoke c => some { s with waiting := s.waiting ++ [c] }
  | XEv.begin =>
    match s.pending, s.waiting with
    | [], c :: rest => some { s with waiting := rest, pending := [c] }
    | _, _ => none
  | XEv.resolve r =>
    match s.pending with
    | [c] => some { s with pending := [], resolved := s.resolved ++ [(c, r)] }
    | _ => none

/-- Modelled from the spec: running a sequence of events. -/
def ExchState.run (s : ExchState) : List XEv → Option ExchState
  | [] => some s
  | e :: rest =>
    match s.step e with
    | some s2 => s2.run rest
    | none => none

/-- Modelled from the spec: the initial state of a fresh session. -/
def ExchState.init : ExchState :=
  { waiting := [], pending := [], resolved := [] }

/-- Callers that invoked send, in submission order, of an event list. -/
def invocationsOf : List XEv → List Nat
  | [] => []
  | XEv.invoke c :: rest => c :: invocationsOf rest
  | _ :: rest => invocationsOf rest

/-- Accounting view of an exchange state: completed callers in
completion order, then the live exchange, then the arrival queue. -/
def ExchState.trace (s : ExchState) : List Nat :=
  s.resolved.map Prod.fst ++ s.pending ++ s.waiting

/-- Exchange outcome delivered to a send caller. -/
inductive ExchResult
  | ok (payload : Nat)
  | timeout
  | sessionClosed
deriving DecidableEq, Repr

/-- Modelled from the spec: state of a LinkSession with correlation of
responses to exchanges (implementation absent from the sources).
Exchanges are numbered by a fresh counter; `pending` is the single
in-flight exchange, `results` records each exchange's outcome in
completion order, `anomalies` counts discarded protocol-anomaly
frames. -/
structure SessionState where
  nextId : Nat
  pending : Option Nat
  results : List (Nat × ExchResult)
  anomalies : Nat
  closed : Bool
deriving DecidableEq, Repr

/-- Events of the LinkSession machine: a send acquires the slot, a local
timeout abandons the outstanding exchange, a response frame for exchange
i with payload p arrives at the receive loop, the session is closed. -/
inductive SEv
  | send
  | timeoutFire
  | arrive (i p : Nat)
  | close
deriving DecidableEq, Repr

/-- Modelled from the spec: one transition of the LinkSession machine.
A send on a closed session fails immediately with SessionClosed; a
response frame that does not match the outstanding exchange (or arrives
when none is outstanding) is discarded and counted as a protocol
anomaly; timeout resolves the outstanding exchange locally with Timeout;
close fails the outstanding exchange with SessionClosed and terminates
the receive loop. -/
def SessionState.step (s : SessionState) : SEv → Option SessionState
  | SEv.send =>
    if s.closed then
      some { s with nextId := s.nextId + 1,
                    results := s.results ++ [(s.nextId, ExchResult.sessionClosed)] }
    else
      match s.pending with
      | none => some { s with nextId := s.nextId + 1, pending := some s.nextId }
      | some _ => none
  | SEv.timeoutFire =>
    match s.pending with
    | some i => some { s with pending := none, results := s.results ++ [(i, ExchResult.timeout)] }
    | none => none
  | SEv.arrive i p =>
    if s.closed then none
    else
      match s.pending with
      | some j =>
        if i = j then
          some { s with pending := none, results := s.results ++ [(j, ExchResult.ok p)] }
        else
          some { s with anomalies := s.anomalies + 1 }
      | none => some { s with anomalies := s.anomalies + 1 }
  | SEv.close =>
    if s.closed then none
    else
      match s.pending with
      | some i =>
        some { s with closed := true, pending := none,
                      results := s.results ++ [(i, ExchResult.sessionClosed)] }
      | none => some { s with closed := true }

/-- Modelled from the spec: running a sequence of session events. -/
def SessionState.run (s : SessionState) : List SEv → Option SessionState
  | [] => some s
  | e :: rest =>
    match s.step e with
    | some s2 => s2.run rest
    | none => none

/-- Modelled from the spec: the initial state of a fresh session. -/
def SessionState.init : SessionState :=
  { nextId := 0, pending := none, results := [], anomalies := 0, closed := false }

/-- Freshness discipline of exchange identifiers: every recorded outcome
belongs to an exchange issued earlier than the counter, and the
outstanding exchange is issued and not yet recorded. -/
def SessionState.WF (s : SessionState) : Prop :=
  (∀ q ∈ s.results, q.1 < s.nextId) ∧
    (∀ i, s.pending = some i → i < s.nextId ∧ ∀ r, (i, r) ∉ s.results)

/-- Output features accepted by set_output_control, enumerated in the
header documentation. -/
inductive OutputFeature
  | respirationMovinglist
  | respirationDetectionlist
  | respStatus
  | respStatusExt
  | basebandIQ
  | basebandAP
  | pulseDopplerFloat
  | pulseDopplerByte
  | noisemapFloat
  | noisemapByte
deriving DecidableEq, Fintype, Repr

/-- Control argument of set_output_control. -/
inductive OutputControl
  | enable
  | disable
deriving DecidableEq, Repr

/-- Truth of the enable control. -/
def OutputControl.isEnable : OutputControl → Bool
  | OutputControl.enable => true
  | OutputControl.disable => false

/-- Exclusivity-group mate of each feature, from the header
documentation of set_output_control: only one of BASEBAND_IQ and
BASEBAND_AMPLITUDE_PHASE can be enabled at a time, and likewise for the
PULSEDOPPLER and NOISEMAP float/byte pairs; the respiration outputs
belong to no group. -/
def groupMate : OutputFeature → Option OutputFeature
  | OutputFeature.basebandIQ => some OutputFeature.basebandAP
  | OutputFeature.basebandAP => some OutputFeature.basebandIQ
  | OutputFeature.pulseDopplerFloat => some OutputFeature.pulseDopplerByte
  | OutputFeature.pulseDopplerByte => some OutputFeature.pulseDopplerFloat
  | OutputFeature.noisemapFloat => some OutputFeature.noisemapByte
  | OutputFeature.noisemapByte => some OutputFeature.noisemapFloat
  | _ => none

/-- Modelled from the spec: the effect of set_output_control on the
OutputFeatureState (the controller implementation is absent from the
sources; the rule is stated in the header documentation).  The feature
itself is set to the requested control, and its group mate, if any, is
set to disabled — also when the request is a disable of an already
disabled feature. -/
def set_output_control (st : OutputFeature → Bool) (f : OutputFeature) (c : OutputControl) :
    OutputFeature → Bool :=
  fun g =>
    if g = f then c.isEnable
    else if groupMate f = some g then false
    else st g

/-- Modelled from the spec: applying a sequence of set_output_control
operations in order. -/
def applyOutputControls (st : OutputFeature → Bool)
    (ops : List (OutputFeature × OutputControl)) : OutputFeature → Bool :=
  ops.foldl (fun a op => set_output_control a op.1 op.2) st

/-- Mutual-exclusion invariant of the OutputFeatureState: within every
exclusivity group at most one member is enabled. -/
def mutexOK (st : OutputFeature → Bool) : Prop :=
  ∀ f g, groupMate f = some g → ¬(st f = true ∧ st g = true)

/-- Detection-zone limits reported by the device through
get_detection_zone_limits: smallest start, largest end, and the step
size of start and end. -/
structure DetectionZoneLimits where
  min : ℚ
  max : ℚ
  step : ℚ
deriving DecidableEq, Repr

/-- Modelled from the spec: the profile-determined actual detection
zone.  The header states that the actual detection zone is determined
by profile configuration and that get_detection_zone returns the actual
values; this is modelled as snapping each requested endpoint to the
device step grid anchored at the reported minimum, rounding to the
nearest grid point. -/
def snapToGrid (L : DetectionZoneLimits) (x : ℚ) : ℚ :=
  L.min + (Rat.floor ((x - L.min) / L.step + 1 / 2) : ℤ) * L.step

/-- Command frames written to the transport by the validated facade
operations. -/
inductive CmdFrame
  | setSensitivity (s : Nat)
  | setDebugLevel (l : Nat)
  | setDetectionZone (a b : ℚ)
deriving DecidableEq, Repr

/-- Status delivered to the facade caller. -/
inductive CmdStatus
  | ok
  | encodingError
deriving DecidableEq, Repr

/-- Modelled from the spec: the observable device-and-session state a
facade operation can touch: the list of frames written to the transport
so far, and the cached device parameters. -/
structure DeviceState where
  written : List CmdFrame
  sensitivity : Nat
  debugLevel : Nat
  limits : DetectionZoneLimits
  zoneStart : ℚ
  zoneEnd : ℚ
deriving DecidableEq, Repr

/-- Modelled from the spec: set_sensitivity with its header-documented
valid range 0 to 9; an out-of-range argument fails with EncodingError
before any frame is written. -/
def X4M200.set_sensitivity (st : DeviceState) (s : Nat) : CmdStatus × DeviceState :=
  if s ≤ 9 then
    (CmdStatus.ok,
      { st with written := st.written ++ [CmdFrame.setSensitivity s], sensitivity := s })
  else (CmdStatus.encodingError, st)

/-- Modelled from the spec: set_debug_level with its header-documented
valid range 0 to 9; an out-of-range argument fails with EncodingError
before any frame is written. -/
def X4M200.set_debug_level (st : DeviceState) (l : Nat) : CmdStatus × DeviceState :=
  if l ≤ 9 then
    (CmdStatus.ok,
      { st with written := st.written ++ [CmdFrame.setDebugLevel l], debugLevel := l })
  else (CmdStatus.encodingError, st)

/-- Modelled from the spec: set_detection_zone validates the requested
pair against the device-reported limits before any frame is sent; on
success the device stores the profile-determined actual zone obtained
by snapping each endpoint to the step grid. -/
def X4M200.set_detection_zone (st : DeviceState) (a b : ℚ) : CmdStatus × DeviceState :=
  if st.limits.min ≤ a ∧ b ≤ st.limits.max ∧ a ≤ b then
    (CmdStatus.ok,
      { st with written := st.written ++ [CmdFrame.setDetectionZone a b],
                zoneStart := snapToGrid st.limits a,
                zoneEnd := snapToGrid st.limits b })
  else (CmdStatus.encodingError, st)

/-- Modelled from the spec: get_detection_zone returns the actual
detection zone held by the device. -/
def X4M200.get_detection_zone (st : DeviceState) : ℚ × ℚ :=
  (st.zoneStart, st.zoneEnd)

/-- Modelled from the spec: get_detection_zone_limits returns the
device-reported smallest start, largest end and step size. -/
def X4M200.get_detection_zone_limits (st : DeviceState) : ℚ × ℚ × ℚ :=
  (st.limits.min, st.limits.max, st.limits.step)

/-- State of the communication port of the ModuleConnector. -/
inductive ConnState
  | connected
  | disconnected
deriving DecidableEq, Repr

/-- Modelled from the spec: connection state visible to a client of the
module, with a flag recording that the module was reset so that the
port must be closed and reopened before further operations. -/
structure ModuleConn where
  conn : ConnState
  moduleResetPending : Bool
deriving DecidableEq, Repr

/-- Modelled from the spec: module_reset resets and restarts the module;
per the header the client must then perform a close and an open to
reestablish the connection. -/
def ModuleConn.module_reset (m : ModuleConn) : ModuleConn :=
  { m with moduleResetPending := true }

/-- Modelled from the spec: disconnecting the communication port. -/
def ModuleConn.disconnect (m : ModuleConn) : ModuleConn :=
  { m with conn := ConnState.disconnected }

/-- Modelled from the spec: reopening the communication port
reestablishes the connection with the (restarted) module. -/
def ModuleConn.reopen (_ : ModuleConn) : ModuleConn :=
  { conn := ConnState.connected, moduleResetPending := false }

/-- Modelled from the spec: the session is usable when the port is
connected and no module reset is pending. -/
def ModuleConn.usable (m : ModuleConn) : Bool :=
  decide (m.conn = ConnState.connected) && !m.moduleResetPending

/-- Modelled from the spec: issuing any further command succeeds only on
a usable session. -/
def ModuleConn.issueCommand (m : ModuleConn) : Option ModuleConn :=
  if m.usable then some m else none

/-- Modelled from the spec: reset is the convenience composite
documented in the header: module_reset, then disconnect the
communication port, then reestablish the connection. -/
def ModuleConn.reset (m : ModuleConn) : ModuleConn :=
  m.module_reset.disconnect.reopen

/-- Sample device state carrying the datasheet detection-zone limits
0.2 m to 9.4 m in steps of 0.1 m. -/
def sampleDeviceState : DeviceState :=
  { written := [], sensitivity := 0, debugLevel := 0,
    limits := { min := 1/5, max := 47/5, step := 1/10 },
    zoneStart := 1/5, zoneEnd := 47/5 }

theorem TypedQueue.pushAll_spec {α : Type} (fs : List α) (q : TypedQueue α)
    (hc : 0 < q.capacity) (h : q.items.length ≤ q.capacity) :
    (q.pushAll fs).items = (q.items ++ fs).drop (q.items.length + fs.length - q.capacity) ∧
      (q.pushAll fs).dropped = q.dropped + (q.items.length + fs.length - q.capacity) ∧
      (q.pushAll fs).capacity = q.capacity := by
  induction fs generalizing q with
  | nil =>
    have hz : q.items.length - q.capacity = 0 := by omega
    simp [TypedQueue.pushAll, hz]
  | cons f t ih =>
    have hstep : q.pushAll (f :: t) = (q.push f).pushAll t := rfl
    by_cases hfull : q.items.length < q.capacity
    · have hpush : q.push f = { q with items := q.items ++ [f] } := by
        simp [TypedQueue.push, hfull]
      obtain ⟨hi, hd, hcap⟩ := ih (q.push f)
        (by simp [hpush]; omega) (by simp [hpush]; omega)
      rw [hstep]
      refine ⟨?_, ?_, ?_⟩
      · rw [hi, hpush]
        have harith : (q.items ++ [f]).length + t.length - q.capacity =
            q.items.length + (f :: t).length - q.capacity := by
          simp
          omega
        rw [harith]
        simp [List.append_assoc]
      · rw [hd, hpush]
        simp
        omega
      · rw [hcap, hpush]
    · have hlen : q.items.length = q.capacity := by omega
      obtain ⟨x, xs, hx⟩ : ∃ x xs, q.items = x :: xs := by
        cases hq : q.items with
        | nil =>
          rw [hq] at hlen
          simp at hlen
          omega
        | cons a l => exact ⟨a, l, rfl⟩
      have hpush : q.push f = { q with items := xs ++ [f], dropped := q.dropped + 1 } := by
        unfold TypedQueue.push
        rw [if_neg hfull, hx]
        rfl
      have hlxs : xs.length + 1 = q.capacity := by
        rw [hx] at hlen
        simpa using hlen
      obtain ⟨hi, hd, hcap⟩ := ih (q.push f)
        (by simp [hpush]; omega) (by simp [hpush]; omega)
      rw [hstep]
      refine ⟨?_, ?_, ?_⟩
      · rw [hi, hpush]
        have h1 : ((xs ++ [f]).length + t.length - q.capacity) = t.length := by
          simp
          omega
        have h2 : q.items.length + (f :: t).length - q.capacity = t.length + 1 := by
          simp [hx]
          omega
        rw [h1, h2, hx]
        simp [List.append_assoc]
      · rw [hd, hpush]
        simp [hx]
        omega
      · rw [hcap, hpush]

theorem TypedQueue.readAll_items {α : Type} (l : List α) (q : TypedQueue α)
    (h : q.items = l) : q.readAll l.length = l := by
  induction l generalizing q with
  | nil => simp [TypedQueue.readAll]
  | cons x t ih =>
    have hr : q.read false = ReadOutcome.item x { q with items := t } := by
      simp [TypedQueue.read, h]
    simp [TypedQueue.readAll, hr]
    exact ih _ rfl

theorem SubscriptionRegistry.pushMany_self (fs : List Frame) (r : SubscriptionRegistry)
    (k : TelemetryKind) : (r.pushMany k fs).queues k = (r.queues k).pushAll fs := by
  induction fs generalizing r with
  | nil => rfl
  | cons f t ih =>
    have h1 : r.pushMany k (f :: t) = (r.push k f).pushMany k t := rfl
    have h2 : (r.push k f).queues k = (r.queues k).push f := by
      simp [SubscriptionRegistry.push]
    rw [h1, ih, h2]
    rfl

theorem invocationsOf_cons (e : XEv) (rest : List XEv) :
    invocationsOf (e :: rest) = invocationsOf [e] ++ invocationsOf rest := by
  cases e <;> simp [invocationsOf]

theorem ExchState.step_trace (s s2 : ExchState) (e : XEv) (h : s.step e = some s2) :
    s2.trace = s.trace ++ invocationsOf [e] ∧
      (s.pending.length ≤ 1 → s2.pending.length ≤ 1) := by
  cases e with
  | invoke c =>
    simp only [ExchState.step, Option.some.injEq] at h
    subst h
    simp [ExchState.trace, invocationsOf]
  | begin =>
    cases hp : s.pending with
    | cons c cs => simp [ExchState.step, hp] at h
    | nil =>
      cases hw : s.waiting with
      | nil => simp [ExchState.step, hp, hw] at h
      | cons c rest =>
        simp only [ExchState.step, hp, hw, Option.some.injEq] at h
        subst h
        simp [ExchState.trace, invocationsOf, hp, hw]
  | resolve r =>
    cases hp : s.pending with
    | nil => simp [ExchState.step, hp] at h
    | cons c cs =>
      cases cs with
      | cons d ds => simp [ExchState.step, hp] at h
      | nil =>
        simp only [ExchState.step, hp, Option.some.injEq] at h
        subst h
        simp [ExchState.trace, invocationsOf, hp]

theorem ExchState.run_trace (evs : List XEv) (s s2 : ExchState) (h : s.run evs = some s2) :
    s2.trace = s.trace ++ invocationsOf evs ∧
      (s.pending.length ≤ 1 → s2.pending.length ≤ 1) := by
  induction evs generalizing s with
  | nil =>
    simp only [ExchState.run, Option.some.injEq] at h
    subst h
    simp [invocationsOf]
  | cons e rest ih =>
    cases hstep : s.step e with
    | none => simp [ExchState.run, hstep] at h
    | some s1 =>
      have h1 : s1.run rest = some s2 := by
        simpa [ExchState.run, hstep] using h
      obtain ⟨ht1, hp1⟩ := ExchState.step_trace s s1 e hstep
      obtain ⟨ht2, hp2⟩ := ih s1 h1
      refine ⟨?_, fun hle => hp2 (hp1 hle)⟩
      rw [ht2, ht1, List.append_assoc, ← invocationsOf_cons]

theorem SessionState.init_WF : SessionState.init.WF := by
  constructor
  · intro q hq
    simp [SessionState.init] at hq
  · intro i hi
    simp [SessionState.init] at hi

theorem SessionState.step_WF (s s2 : SessionState) (e : SEv) (hwf : s.WF)
    (h : s.step e = some s2) : s2.WF := by
  obtain ⟨hw1, hw2⟩ := hwf
  cases e with
  | send =>
    cases hcl : s.closed with
    | true =>
      simp only [SessionState.step, hcl, if_true, Option.some.injEq] at h
      subst h
      refine ⟨?_, ?_⟩
      · intro q hq
        simp only [List.mem_append, List.mem_singleton] at hq
        rcases hq with hq | hq
        · exact Nat.lt_succ_of_lt (hw1 q hq)
        · simp [hq]
      · intro i hi
        obtain ⟨hlt, hnot⟩ := hw2 i hi
        refine ⟨Nat.lt_succ_of_lt hlt, fun r hr => ?_⟩
        simp only [List.mem_append, List.mem_singleton] at hr
        rcases hr with hr | hr
        · exact hnot r hr
        · have hfst : i = s.nextId := congrArg Prod.fst hr
          omega
    | false =>
      cases hp : s.pending with
      | some j => simp [SessionState.step, hcl, hp] at h
      | none =>
        simp only [SessionState.step, hcl, hp, Bool.false_eq_true, if_false,
          Option.some.injEq] at h
        subst h
        refine ⟨?_, ?_⟩
        · intro q hq
          exact Nat.lt_succ_of_lt (hw1 q hq)
        · intro i hi
          have hi2 : s.nextId = i := by simpa using hi
          subst hi2
          refine ⟨Nat.lt_succ_self _, fun r hr => ?_⟩
          exact absurd (hw1 _ hr) (by omega)
  | timeoutFire =>
    cases hp : s.pending with
    | none => simp [SessionState.step, hp] at h
    | some i0 =>
      simp only [SessionState.step, hp, Option.some.injEq] at h
      subst h
      refine ⟨?_, ?_⟩
      · intro q hq
        simp only [List.mem_append, List.mem_singleton] at hq
        rcases hq with hq | hq
        · exact hw1 q hq
        · obtain ⟨hlt, _⟩ := hw2 i0 hp
          rw [hq]
          exact hlt
      · intro i hi
        simp at hi
  | arrive i0 p =>
    cases hcl : s.closed with
    | true => simp [SessionState.step, hcl] at h
    | false =>
      cases hp : s.pending with
      | none =>
        simp only [SessionState.step, hcl, hp, Bool.false_eq_true, if_false,
          Option.some.injEq] at h
        subst h
        exact ⟨fun q hq => hw1 q hq, fun i hi => by simp at hi⟩
      | some j =>
        by_cases hij : i0 = j
        · subst hij
          simp only [SessionState.step, hcl, hp, Bool.false_eq_true, if_false, if_true,
            Option.some.injEq, if_pos rfl] at h
          subst h
          refine ⟨?_, ?_⟩
          · intro q hq
            simp only [List.mem_append, List.mem_singleton] at hq
            rcases hq with hq | hq
            · exact hw1 q hq
            · obtain ⟨hlt, _⟩ := hw2 i0 hp
              rw [hq]
              exact hlt
          · intro i hi
            simp at hi
        · simp only [SessionState.step, hcl, hp, Bool.false_eq_true, if_false,
            if_neg hij, Option.some.injEq] at h
          subst h
          refine ⟨fun q hq => hw1 q hq, fun i hi => ?_⟩
          have hji : j = i := by simpa using hi
          subst hji
          exact hw2 j hp
  | close =>
    cases hcl : s.closed with
    | true => simp [SessionState.step, hcl] at h
    | false =>
      cases hp : s.pending with
      | none =>
        simp only [SessionState.step, hcl, hp, Bool.false_eq_true, if_false,
          Option.some.injEq] at h
        subst h
        exact ⟨fun q hq => hw1 q hq, fun i hi => by simp at hi⟩
      | some i0 =>
        simp only [SessionState.step, hcl, hp, Bool.false_eq_true, if_false,
          Option.some.injEq] at h
        subst h
        refine ⟨?_, ?_⟩
        · intro q hq
          simp only [List.mem_append, List.mem_singleton] at hq
          rcases hq with hq | hq
          · exact hw1 q hq
          · obtain ⟨hlt, _⟩ := hw2 i0 hp
            rw [hq]
            exact hlt
        · intro i hi
          simp at hi

theorem SessionState.run_WF (evs : List SEv) (s s2 : SessionState) (hwf : s.WF)
    (h : s.run evs = some s2) : s2.WF := by
  induction evs generalizing s with
  | nil =>
    simp only [SessionState.run, Option.some.injEq] at h
    subst h
    exact hwf
  | cons e rest ih =>
    cases hstep : s.step e with
    | none => simp [SessionState.run, hstep] at h
    | some s1 =>
      have h1 : s1.run rest = some s2 := by
        simpa [SessionState.run, hstep] using h
      exact ih s1 (SessionState.step_WF s s1 e hwf hstep) h1

theorem groupMate_symm : ∀ f g, groupMate f = some g → groupMate g = some f := by decide

theorem groupMate_ne : ∀ f g, groupMate f = some g → g ≠ f := by decide

theorem set_output_control_mutex (st : OutputFeature → Bool) (f : OutputFeature)
    (c : OutputControl) (h : mutexOK st) : mutexOK (set_output_control st f c) := by
  intro a b hab hcontra
  obtain ⟨ha, hb⟩ := hcontra
  by_cases haf : a = f
  · subst haf
    have hbf : b ≠ a := groupMate_ne a b hab
    have hzero : set_output_control st a c b = false := by
      simp [set_output_control, hbf, hab]
    rw [hzero] at hb
    exact Bool.false_ne_true hb
  · by_cases hma : groupMate f = some a
    · have hzero : set_output_control st f c a = false := by
        simp [set_output_control, haf, hma]
      rw [hzero] at ha
      exact Bool.false_ne_true ha
    · have ha2 : set_output_control st f c a = st a := by
        simp [set_output_control, haf, hma]
      by_cases hbf : b = f
      · subst hbf
        exact hma (groupMate_symm a b hab)
      · by_cases hmb : groupMate f = some b
        · have hzero : set_output_control st f c b = false := by
            simp [set_output_control, hbf, hmb]
          rw [hzero] at hb
          exact Bool.false_ne_true hb
        · have hb2 : set_output_control st f c b = st b := by
            simp [set_output_control, hbf, hmb]
          exact h a b hab ⟨ha2 ▸ ha, hb2 ▸ hb⟩

theorem mutexOK_allDisabled : mutexOK (fun _ => false) := by
  intro f g hm hcontra
  exact Bool.false_ne_true hcontra.1

theorem applyOutputControls_mutex (ops : List (OutputFeature × OutputControl))
    (st : OutputFeature → Bool) (h : mutexOK st) :
    mutexOK (applyOutputControls st ops) := by
  induction ops generalizing st with
  | nil => exact h
  | cons op rest ih => exact ih _ (set_output_control_mutex st op.1 op.2 h)

theorem ratFloor_eq_floor (q : ℚ) : (Rat.floor q : ℤ) = ⌊q⌋ := by
  rw [Rat.floor_def', ← Rat.floor_def]

theorem ratFloor_int_add_half (n : ℤ) : (Rat.floor ((n : ℚ) + 1 / 2) : ℤ) = n := by
  rw [ratFloor_eq_floor, Int.floor_int_add]
  norm_num

theorem ratFloor_intCast (n : ℤ) : (Rat.floor ((n : ℚ)) : ℤ) = n := by
  rw [ratFloor_eq_floor]
  exact Int.floor_intCast n

theorem snapToGrid_onGrid (L : DetectionZoneLimits) (n : ℤ) (hs : L.step ≠ 0) :
    snapToGrid L (L.min + (n : ℚ) * L.step) = L.min + (n : ℚ) * L.step := by
  unfold snapToGrid
  have h1 : (L.min + (n : ℚ) * L.step - L.min) / L.step = (n : ℚ) := by
    field_simp
  rw [h1, ratFloor_int_add_half]

/-- Claim C1: on every run of the CommandExchange machine from the
initial state, at most one PendingExchange exists at any instant; a
send invoked while another is outstanding waits (the exchange slot can
be acquired only when no PendingExchange is live); and responses are
matched to requests in FIFO submission order (the completed callers,
then the live exchange, then the still-waiting callers, read exactly as
the submission order of the run). -/
theorem exchange_exclusivity (evs : List XEv) (s : ExchState)
    (h : ExchState.init.run evs = some s) :
    s.pending.length ≤ 1 ∧
      s.resolved.map Prod.fst ++ s.pending ++ s.waiting = invocationsOf evs ∧
      ∀ s2, s.step XEv.begin = some s2 → s.pending = [] := by
  obtain ⟨ht, hp⟩ := ExchState.run_trace evs ExchState.init s h
  refine ⟨hp (by simp [ExchState.init]), ?_, ?_⟩
  · simpa [ExchState.trace, ExchState.init] using ht
  · intro s2 hstep
    cases hpend : s.pending with
    | nil => rfl
    | cons c cs => simp [ExchState.step, hpend] at hstep

theorem exchange_exclusivity_witness :
    ({ waiting := [2], pending := [], resolved := [(1, 9)] } : ExchState).pending.length ≤ 1 ∧
      ({ waiting := [2], pending := [], resolved := [(1, 9)] } : ExchState).resolved.map
          Prod.fst ++
          ({ waiting := [2], pending := [], resolved := [(1, 9)] } : ExchState).pending ++
          ({ waiting := [2], pending := [], resolved := [(1, 9)] } : ExchState).waiting =
        invocationsOf [XEv.invoke 1, XEv.begin, XEv.invoke 2, XEv.resolve 9] ∧
      ∀ s2,
        ({ waiting := [2], pending := [], resolved := [(1, 9)] } : ExchState).step XEv.begin =
            some s2 →
          ({ waiting := [2], pending := [], resolved := [(1, 9)] } : ExchState).pending = [] :=
  exchange_exclusivity [XEv.invoke 1, XEv.begin, XEv.invoke 2, XEv.resolve 9]
    { waiting := [2], pending := [], resolved := [(1, 9)] } rfl

/-- Claim C2: under every sequence of set_output_control operations
from the all-disabled initial OutputFeatureState, at most one member of
each exclusivity group is enabled; moreover enabling a feature leaves
it enabled and its group mate disabled, and disabling a feature (from
an arbitrary prior state, in particular one where it is already
disabled) leaves both it and its group mate disabled — both directions
of the protocol's non-symmetric rule. -/
theorem output_exclusivity (ops : List (OutputFeature × OutputControl))
    (st : OutputFeature → Bool) (f mate : OutputFeature)
    (hm : groupMate f = some mate) :
    mutexOK (applyOutputControls (fun _ => false) ops) ∧
      set_output_control st f OutputControl.enable f = true ∧
      set_output_control st f OutputControl.enable mate = false ∧
      set_output_control st f OutputControl.disable f = false ∧
      set_output_control st f OutputControl.disable mate = false := by
  have hmf : mate ≠ f := groupMate_ne f mate hm
  refine ⟨applyOutputControls_mutex ops _ mutexOK_allDisabled, ?_, ?_, ?_, ?_⟩ <;>
    simp [set_output_control, OutputControl.isEnable, hm, hmf]

theorem output_exclusivity_witness :
    mutexOK (applyOutputControls (fun _ => false)
        [(OutputFeature.basebandIQ, OutputControl.enable),
          (OutputFeature.basebandAP, OutputControl.disable)]) ∧
      set_output_control (fun _ => false) OutputFeature.basebandIQ OutputControl.enable
          OutputFeature.basebandIQ = true ∧
      set_output_control (fun _ => false) OutputFeature.basebandIQ OutputControl.enable
          OutputFeature.basebandAP = false ∧
      set_output_control (fun _ => false) OutputFeature.basebandIQ OutputControl.disable
          OutputFeature.basebandIQ = false ∧
      set_output_control (fun _ => false) OutputFeature.basebandIQ OutputControl.disable
          OutputFeature.basebandAP = false :=
  output_exclusivity
    [(OutputFeature.basebandIQ, OutputControl.enable),
      (OutputFeature.basebandAP, OutputControl.disable)]
    (fun _ => false) OutputFeature.basebandIQ OutputFeature.basebandAP rfl

/-- Claim C3: pushing capacity + k frames of a kind K into a fresh
registry with no intervening reads leaves exactly the capacity newest
frames retrievable in order, and the drop counter of kind K equals k;
the push itself is a total operation of the receive loop and never
blocks. -/
theorem overflow_bound (cap : TelemetryKind → Nat) (K : TelemetryKind) (k : Nat)
    (fs : List Frame) (hc : 0 < cap K) (hlen : fs.length = cap K + k) :
    (((SubscriptionRegistry.ofCapacity cap).pushMany K fs).queues K).items = fs.drop k ∧
      (((SubscriptionRegistry.ofCapacity cap).pushMany K fs).queues K).dropped = k ∧
      (((SubscriptionRegistry.ofCapacity cap).pushMany K fs).queues K).items.length =
        cap K := by
  rw [SubscriptionRegistry.pushMany_self]
  have hq : (SubscriptionRegistry.ofCapacity cap).queues K = TypedQueue.empty Frame (cap K) :=
    rfl
  rw [hq]
  obtain ⟨hi, hd, _⟩ := TypedQueue.pushAll_spec fs (TypedQueue.empty Frame (cap K))
    (by simpa [TypedQueue.empty] using hc) (by simp [TypedQueue.empty])
  have hidx : (TypedQueue.empty Frame (cap K)).items.length + fs.length -
      (TypedQueue.empty Frame (cap K)).capacity = k := by
    simp [TypedQueue.empty]
    omega
  rw [hidx] at hi hd
  have hi2 : ((TypedQueue.empty Frame (cap K)).pushAll fs).items = fs.drop k := by
    simpa [TypedQueue.empty] using hi
  have hd2 : ((TypedQueue.empty Frame (cap K)).pushAll fs).dropped = k := by
    simpa [TypedQueue.empty] using hd
  refine ⟨hi2, hd2, ?_⟩
  rw [hi2]
  simp [hlen]

theorem overflow_bound_witness :
    (((SubscriptionRegistry.ofCapacity fun _ => 2).pushMany TelemetryKind.noisemapFloat
          [10, 20, 30]).queues TelemetryKind.noisemapFloat).items = [10, 20, 30].drop 1 ∧
      (((SubscriptionRegistry.ofCapacity fun _ => 2).pushMany TelemetryKind.noisemapFloat
            [10, 20, 30]).queues TelemetryKind.noisemapFloat).dropped = 1 ∧
      (((SubscriptionRegistry.ofCapacity fun _ => 2).pushMany TelemetryKind.noisemapFloat
            [10, 20, 30]).queues TelemetryKind.noisemapFloat).items.length =
        (fun _ => 2) TelemetryKind.noisemapFloat :=
  overflow_bound (fun _ => 2) TelemetryKind.noisemapFloat 1 [10, 20, 30]
    (by decide) (by decide)

/-- Claim C4: pushing frames f1 … fn of kind K (n at most the capacity
of kind K) into a fresh registry and then reading n times from kind K
returns exactly f1 … fn in that order; a read on an empty queue of an
open session suspends the caller (it does not return an item), awaiting
data or session closure. -/
theorem queue_fifo (cap : TelemetryKind → Nat) (K : TelemetryKind) (fs : List Frame)
    (q : TypedQueue Frame) (hlen : fs.length ≤ cap K) (hq : q.items = []) :
    (((SubscriptionRegistry.ofCapacity cap).pushMany K fs).queues K).readAll fs.length =
        fs ∧
      q.read false = ReadOutcome.wouldBlock := by
  refine ⟨?_, by simp [TypedQueue.read, hq]⟩
  rw [SubscriptionRegistry.pushMany_self]
  have hq0 : (SubscriptionRegistry.ofCapacity cap).queues K = TypedQueue.empty Frame (cap K) :=
    rfl
  rw [hq0]
  cases fs with
  | nil => simp [TypedQueue.readAll]
  | cons f t =>
    have hlen2 : t.length + 1 ≤ cap K := by simpa using hlen
    have hc : 0 < cap K := by omega
    obtain ⟨hi, _, _⟩ := TypedQueue.pushAll_spec (f :: t) (TypedQueue.empty Frame (cap K))
      (by simpa [TypedQueue.empty] using hc) (by simp [TypedQueue.empty])
    have hidx : (TypedQueue.empty Frame (cap K)).items.length + (f :: t).length -
        (TypedQueue.empty Frame (cap K)).capacity = 0 := by
      simp [TypedQueue.empty]
      omega
    rw [hidx] at hi
    have hi2 : ((TypedQueue.empty Frame (cap K)).pushAll (f :: t)).items = f :: t := by
      simpa [TypedQueue.empty] using hi
    exact TypedQueue.readAll_items (f :: t) _ hi2

theorem queue_fifo_witness :
    (((SubscriptionRegistry.ofCapacity fun _ => 3).pushMany TelemetryKind.basebandIQ
          [7, 8]).queues TelemetryKind.basebandIQ).readAll ([7, 8] : List Frame).length =
        [7, 8] ∧
      (TypedQueue.empty Frame 3).read false = ReadOutcome.wouldBlock :=
  queue_fifo (fun _ => 3) TelemetryKind.basebandIQ [7, 8] (TypedQueue.empty Frame 3)
    (by decide) rfl

/-- Claim C5: on every run of the LinkSession machine, if an exchange i
has been resolved with Timeout and the session is still open, then a
late response frame for exchange i is discarded as a protocol anomaly:
the step only increments the anomaly counter, leaving the outstanding
exchange (a subsequently issued send, if any) and all recorded results
untouched, so the late frame never resolves any subsequently issued
exchange. -/
theorem timeout_isolation (evs : List SEv) (s : SessionState) (i p : Nat)
    (h : SessionState.init.run evs = some s)
    (hopen : s.closed = false)
    (ht : (i, ExchResult.timeout) ∈ s.results) :
    s.step (SEv.arrive i p) = some { s with anomalies := s.anomalies + 1 } := by
  have hwf := SessionState.run_WF evs SessionState.init s SessionState.init_WF h
  cases hpend : s.pending with
  | none => simp [SessionState.step, hopen, hpend]
  | some j =>
    have hne : i ≠ j := by
      intro hij
      subst hij
      exact (hwf.2 i hpend).2 ExchResult.timeout ht
    simp [SessionState.step, hopen, hpend, hne]

theorem timeout_isolation_witness :
    SessionState.step
        { nextId := 2, pending := some 1, results := [(0, ExchResult.timeout)],
          anomalies := 0, closed := false } (SEv.arrive 0 42) =
      some
        { nextId := 2, pending := some 1, results := [(0, ExchResult.timeout)],
          anomalies := 0 + 1, closed := false } :=
  timeout_isolation [SEv.send, SEv.timeoutFire, SEv.send]
    { nextId := 2, pending := some 1, results := [(0, ExchResult.timeout)],
      anomalies := 0, closed := false } 0 42 rfl rfl (by simp)

/-- Claim C6: closing an open session fails the outstanding exchange
with SessionClosed; on a closed session every future send returns
SessionClosed immediately, and every read on any TypedQueue — whether
the reader was already waiting or arrives later, and whatever the queue
holds — returns the closed indicator rather than suspending, so no
operation on a closed session blocks indefinitely. -/
theorem closed_session (s s2 : SessionState) (i : Nat) (q : TypedQueue Frame)
    (hopen : s.closed = false) (hp : s.pending = some i) (h2 : s2.closed = true) :
    s.step SEv.close =
        some { s with closed := true, pending := none,
                      results := s.results ++ [(i, ExchResult.sessionClosed)] } ∧
      s2.step SEv.send =
        some { s2 with nextId := s2.nextId + 1,
                       results := s2.results ++ [(s2.nextId, ExchResult.sessionClosed)] } ∧
      q.read true = ReadOutcome.closed := by
  refine ⟨?_, ?_, ?_⟩
  · simp [SessionState.step, hopen, hp]
  · simp [SessionState.step, h2]
  · simp [TypedQueue.read]

theorem closed_session_witness :
    SessionState.step
        { nextId := 1, pending := some 0, results := [], anomalies := 0, closed := false }
        SEv.close =
      some
        { nextId := 1, pending := none, results := [(0, ExchResult.sessionClosed)],
          anomalies := 0, closed := true } ∧
      SessionState.step
          { nextId := 5, pending := none, results := [], anomalies := 0, closed := true }
          SEv.send =
        some
          { nextId := 5 + 1, pending := none, results := [(5, ExchResult.sessionClosed)],
            anomalies := 0, closed := true } ∧
      (TypedQueue.empty Frame 2).read true = ReadOutcome.closed :=
  closed_session
    { nextId := 1, pending := some 0, results := [], anomalies := 0, closed := false }
    { nextId := 5, pending := none, results := [], anomalies := 0, closed := true }
    0 (TypedQueue.empty Frame 2) rfl rfl rfl

/-- Claim C7: each range-validated facade operation — set_sensitivity
(valid range 0 to 9), set_debug_level (valid range 0 to 9) and
set_detection_zone (validated against the device-reported limits) —
fails with EncodingError on an out-of-range argument and returns the
device-and-session state completely unchanged: no frame is written to
the transport and no cached parameter moves. -/
theorem validation_before_transport (st : DeviceState) (s l : Nat) (a b : ℚ)
    (hs : 9 < s) (hl : 9 < l)
    (hz : ¬(st.limits.min ≤ a ∧ b ≤ st.limits.max ∧ a ≤ b)) :
    X4M200.set_sensitivity st s = (CmdStatus.encodingError, st) ∧
      X4M200.set_debug_level st l = (CmdStatus.encodingError, st) ∧
      X4M200.set_detection_zone st a b = (CmdStatus.encodingError, st) := by
  refine ⟨?_, ?_, ?_⟩
  · have hns : ¬s ≤ 9 := by omega
    simp [X4M200.set_sensitivity, hns]
  · have hnl : ¬l ≤ 9 := by omega
    simp [X4M200.set_debug_level, hnl]
  · simp [X4M200.set_detection_zone, hz]

theorem validation_before_transport_witness :
    X4M200.set_sensitivity sampleDeviceState 10 = (CmdStatus.encodingError, sampleDeviceState) ∧
      X4M200.set_debug_level sampleDeviceState 10 =
        (CmdStatus.encodingError, sampleDeviceState) ∧
      X4M200.set_detection_zone sampleDeviceState 0 100 =
        (CmdStatus.encodingError, sampleDeviceState) :=
  validation_before_transport sampleDeviceState 10 10 0 100 (by decide) (by decide)
    (by norm_num [sampleDeviceState])

/-- Claim C8, counterexample: with the datasheet limits (0.2, 9.4, 0.1)
the pair (0.45, 3.0) lies within the reported limits and the set
command succeeds, yet get_detection_zone afterwards returns the
profile-determined actual zone (0.5, 3.0), not the requested pair: the
header states that the actual detection zone is determined by profile
configuration and must be queried with get_detection_zone, so an exact
round trip does not hold for every in-range pair. -/
theorem detection_zone_roundtrip_cex :
    (sampleDeviceState.limits.min ≤ 9 / 20 ∧ (3 : ℚ) ≤ sampleDeviceState.limits.max ∧
        (9 : ℚ) / 20 ≤ 3) ∧
      (X4M200.set_detection_zone sampleDeviceState (9 / 20) 3).1 = CmdStatus.ok ∧
      X4M200.get_detection_zone (X4M200.set_detection_zone sampleDeviceState (9 / 20) 3).2 ≠
        (9 / 20, 3) := by
  have hvalid : sampleDeviceState.limits.min ≤ 9 / 20 ∧
      (3 : ℚ) ≤ sampleDeviceState.limits.max ∧ (9 : ℚ) / 20 ≤ 3 := by
    refine ⟨?_, ?_, ?_⟩ <;> norm_num [sampleDeviceState]
  have hsnapA : snapToGrid sampleDeviceState.limits (9 / 20) = 1 / 2 := by
    unfold snapToGrid
    have e1 : ((9 : ℚ) / 20 - sampleDeviceState.limits.min) / sampleDeviceState.limits.step +
        1 / 2 = ((3 : ℤ) : ℚ) := by
      norm_num [sampleDeviceState]
    rw [e1, ratFloor_intCast]
    norm_num [sampleDeviceState]
  have hset : X4M200.set_detection_zone sampleDeviceState (9 / 20) 3 =
      (CmdStatus.ok,
        { sampleDeviceState with
            written := sampleDeviceState.written ++ [CmdFrame.setDetectionZone (9 / 20) 3],
            zoneStart := snapToGrid sampleDeviceState.limits (9 / 20),
            zoneEnd := snapToGrid sampleDeviceState.limits 3 }) := by
    unfold X4M200.set_detection_zone
    rw [if_pos hvalid]
  refine ⟨hvalid, ?_, ?_⟩
  · rw [hset]
  · rw [hset]
    unfold X4M200.get_detection_zone
    intro hcontra
    have hfst : snapToGrid sampleDeviceState.limits (9 / 20) = 9 / 20 := by
      simpa using congrArg Prod.fst hcontra
    rw [hsnapA] at hfst
    norm_num at hfst

/-- Claim C8, amended: for every in-range pair (start, end) within the
device-reported limits whose endpoints lie on the device step grid —
as the pair (0.5, 3.0) does with the datasheet limits (0.2, 9.4, 0.1) —
set_detection_zone succeeds and a following get_detection_zone returns
exactly (start, end); for a pair outside the limits the call fails with
EncodingError before any frame is sent, leaving the state unchanged.
For in-range pairs off the step grid the header only promises the
profile-determined actual zone, which get_detection_zone reports. -/
theorem detection_zone_roundtrip (st : DeviceState) (a b : ℚ)
    (hs : st.limits.step ≠ 0)
    (hv : st.limits.min ≤ a ∧ b ≤ st.limits.max ∧ a ≤ b)
    (ha : ∃ n : ℤ, a = st.limits.min + (n : ℚ) * st.limits.step)
    (hb : ∃ n : ℤ, b = st.limits.min + (n : ℚ) * st.limits.step) :
    (X4M200.set_detection_zone st a b).1 = CmdStatus.ok ∧
      X4M200.get_detection_zone (X4M200.set_detection_zone st a b).2 = (a, b) ∧
      ∀ a2 b2 : ℚ, ¬(st.limits.min ≤ a2 ∧ b2 ≤ st.limits.max ∧ a2 ≤ b2) →
        X4M200.set_detection_zone st a2 b2 = (CmdStatus.encodingError, st) := by
  have hset : X4M200.set_detection_zone st a b =
      (CmdStatus.ok,
        { st with written := st.written ++ [CmdFrame.setDetectionZone a b],
                  zoneStart := snapToGrid st.limits a,
                  zoneEnd := snapToGrid st.limits b }) := by
    unfold X4M200.set_detection_zone
    rw [if_pos hv]
  obtain ⟨n, han⟩ := ha
  obtain ⟨m, hbm⟩ := hb
  refine ⟨by rw [hset], ?_, ?_⟩
  · rw [hset]
    unfold X4M200.get_detection_zone
    have hsa : snapToGrid st.limits a = a := by
      rw [han]
      exact snapToGrid_onGrid st.limits n hs
    have hsb : snapToGrid st.limits b = b := by
      rw [hbm]
      exact snapToGrid_onGrid st.limits m hs
    simp [hsa, hsb]
  · intro a2 b2 hz
    simp [X4M200.set_detection_zone, hz]

theorem detection_zone_roundtrip_witness :
    (X4M200.set_detection_zone sampleDeviceState (1 / 2) 3).1 = CmdStatus.ok ∧
      X4M200.get_detection_zone (X4M200.set_detection_zone sampleDeviceState (1 / 2) 3).2 =
        (1 / 2, 3) ∧
      ∀ a2 b2 : ℚ,
        ¬(sampleDeviceState.limits.min ≤ a2 ∧ b2 ≤ sampleDeviceState.limits.max ∧ a2 ≤ b2) →
          X4M200.set_detection_zone sampleDeviceState a2 b2 =
            (CmdStatus.encodingError, sampleDeviceState) :=
  detection_zone_roundtrip sampleDeviceState (1 / 2) 3
    (by norm_num [sampleDeviceState])
    (by refine ⟨?_, ?_, ?_⟩ <;> norm_num [sampleDeviceState])
    ⟨3, by norm_num [sampleDeviceState]⟩
    ⟨28, by norm_num [sampleDeviceState]⟩

/-- Claim C9: reset is the composite documented in the header —
module_reset, then disconnecting the communication port, then
reestablishing the connection — so after a successful reset the session
is usable again and commands can be issued; after a bare module_reset
the session is not usable and commands fail until the client itself
performs the close and reopen, after which the session is usable
again. -/
theorem reset_semantics (m : ModuleConn) :
    m.reset = m.module_reset.disconnect.reopen ∧
      (m.reset).usable = true ∧
      (m.reset).issueCommand = some m.reset ∧
      (m.module_reset).usable = false ∧
      (m.module_reset).issueCommand = none ∧
      (m.module_reset.disconnect.reopen).usable = true := by
  refine ⟨rfl, ?_, ?_, ?_, ?_, ?_⟩ <;>
    simp [ModuleConn.reset, ModuleConn.reopen, ModuleConn.disconnect,
      ModuleConn.module_reset, ModuleConn.usable, ModuleConn.issueCommand]

/-- Claim C10: the noisemap read operations deliver their items using
the pulse-Doppler element types — read_message_noisemap_float fills a
PulseDopplerFloatData and read_message_noisemap_byte fills a
PulseDopplerByteData — while noisemap-float and noisemap-byte remain
telemetry kinds distinct from the pulse-Doppler kinds, with their own
queues: delivering a frame to one kind leaves the peek count of the
other kind unchanged. -/
theorem noisemap_element_types :
    readElemType TelemetryKind.noisemapFloat = DataType.pulseDopplerFloatData ∧
      readElemType TelemetryKind.noisemapByte = DataType.pulseDopplerByteData ∧
      TelemetryKind.noisemapFloat ≠ TelemetryKind.pulseDopplerFloat ∧
      TelemetryKind.noisemapByte ≠ TelemetryKind.pulseDopplerByte ∧
      ∀ (r : SubscriptionRegistry) (f : Frame),
        (r.push TelemetryKind.noisemapFloat f).peek TelemetryKind.pulseDopplerFloat =
            r.peek TelemetryKind.pulseDopplerFloat ∧
          (r.push TelemetryKind.pulseDopplerFloat f).peek TelemetryKind.noisemapFloat =
            r.peek TelemetryKind.noisemapFloat ∧
          (r.push TelemetryKind.noisemapByte f).peek TelemetryKind.pulseDopplerByte =
            r.peek TelemetryKind.pulseDopplerByte ∧
          (r.push TelemetryKind.pulseDopplerByte f).peek TelemetryKind.noisemapByte =
            r.peek TelemetryKind.noisemapByte := by
  refine ⟨rfl, rfl, by decide, by decide, ?_⟩
  intro r f
  refine ⟨?_, ?_, ?_, ?_⟩ <;> simp [SubscriptionRegistry.push, SubscriptionRegistry.peek]
